import Mathlib

/-!
Shallow embedding of the GSTR-1 spreadsheet-assembly core of the repository
(`src/services` — the `parseCSV` / `getSheetName` / `cleanPlaceOfSupply` /
`appendDataToSheet` / `generateGSTR1Excel` segment), together with theorems
settling the frozen claims about it.

Modelling conventions:
* JS strings are Lean `String`s; all string primitives used by the source
  (`trim`, `toUpperCase`, `toLowerCase`, `includes`, `split(/\r?\n/)`,
  `replace`) are re-implemented below on `List Char` so that they evaluate
  inside the kernel.  The source only ever feeds ASCII data through them;
  the ECMAScript Unicode extensions (e.g. NBSP in `trim`, non-ASCII case
  mapping) are outside every claim's inputs and are not modelled.
* JS numbers produced by `parseFloat` are modelled as exact rationals.  Every
  string reaching the numeric branch of the source matches
  `^-?\d+\.?\d*$`, i.e. is a plain decimal numeral, for which `parseFloat`
  is exact up to IEEE-754 rounding; no claim depends on values needing more
  than double precision.
* An `xlsx` worksheet cell `{t, v}` is `Cell`; a worksheet is a cell map
  plus its decoded `!ref` range; a workbook is its ordered sheet list.
* `XLSX.read` / `XLSX.write` / `atob` are external library calls: decoding
  the template is modelled by an `Option Workbook` argument (`none` models
  the `catch` branch of the source), and serialization is the identity on
  the assembled workbook (no claim is about the binary encoding).
-/

set_option maxHeartbeats 1000000
set_option maxRecDepth 10000

namespace GSTPortal

/-! ## JS string primitives (ASCII fragment) -/

/-- Whitespace recognized by JS `trim` / `\s` (ASCII fragment). -/
def jsWS (c : Char) : Bool :=
  c = ' ' || c = '\t' || c = '\n' || c = '\r' || c = '\x0b' || c = '\x0c'

def trimChars (cs : List Char) : List Char :=
  ((cs.dropWhile jsWS).reverse.dropWhile jsWS).reverse

/-- JS `String.prototype.trim` (ASCII whitespace). -/
def jsTrim (s : String) : String := String.mk (trimChars s.data)

def upperChar (c : Char) : Char :=
  if 'a' ≤ c ∧ c ≤ 'z' then Char.ofNat (c.toNat - 32) else c

def lowerChar (c : Char) : Char :=
  if 'A' ≤ c ∧ c ≤ 'Z' then Char.ofNat (c.toNat + 32) else c

/-- JS `toUpperCase` (ASCII). -/
def jsToUpper (s : String) : String := String.mk (s.data.map upperChar)

/-- JS `toLowerCase` (ASCII). -/
def jsToLower (s : String) : String := String.mk (s.data.map lowerChar)

/-- JS `String.prototype.includes`: substring occurrence test. -/
def containsSub (hay sub : List Char) : Bool :=
  (List.range (hay.length + 1)).any fun i => sub.isPrefixOf (hay.drop i)

def hasSub (s sub : String) : Bool := containsSub s.data sub.data

/-- JS `text.split(/\r?\n/)` on the character list: a `\r\n` pair or a lone
`\n` separates lines; a `\r` not followed by `\n` stays in its line. -/
def splitCRLF : List Char → List (List Char)
  | [] => [[]]
  | '\r' :: '\n' :: rest => [] :: splitCRLF rest
  | '\n' :: rest => [] :: splitCRLF rest
  | c :: rest =>
    match splitCRLF rest with
    | [] => [[c]]
    | l :: ls => (c :: l) :: ls

/-! ## Delimited record parser (source: `parseCSV`) -/

/-- The record type: a JS object as an insertion-ordered association list
with unique keys (`row[h] = v` semantics via `objInsert`). -/
abbrev Rec := List (String × String)

/-- JS property read `row[k]` (`none` models `undefined`). -/
def recGet (row : Rec) (k : String) : Option String :=
  (row.find? (fun p => p.1 == k)).map Prod.snd

/-- JS property write `row[k] = v`: updates in place if the key exists
(keeping its insertion position), else appends. -/
def objInsert (k v : String) (row : Rec) : Rec :=
  if row.any (fun p => p.1 == k) then
    row.map (fun p => if p.1 == k then (k, v) else p)
  else row ++ [(k, v)]

/-- Source `parseLine`: split on commas outside double quotes, a quote char
toggles the in-quotes flag and is dropped, each field is trimmed. -/
def parseLineChars (cs : List Char) (current : String) (inQ : Bool) : List String :=
  match cs with
  | [] => [jsTrim current]
  | '"' :: rest => parseLineChars rest current (!inQ)
  | ',' :: rest =>
    if inQ then parseLineChars rest (current.push ',') inQ
    else jsTrim current :: parseLineChars rest "" inQ
  | c :: rest => parseLineChars rest (current.push c) inQ

def parseLine (line : String) : List String := parseLineChars line.data "" false

/-- `headers.forEach((h, i) => { row[h] = values[i] || ''; })` -/
def mkRecord (headers values : List String) : Rec :=
  headers.enum.foldl (fun row ih => objInsert ih.2 (values.getD ih.1 "") row) []

/-- `text.trim().split(/\r?\n/)` -/
def csvLines (text : String) : List String :=
  (splitCRLF (jsTrim text).data).map String.mk

/-- Source `parseCSV`. -/
def parseCSV (text : String) : List Rec :=
  let lines := csvLines text
  if lines.length ≤ 1 then []
  else
    let headers := parseLine (lines.headD "")
    (lines.tail.filter (fun l => !(jsTrim l == ""))).map
      (fun line => mkRecord headers (parseLine line))

/-- Source `trimAll` (all record values are strings here). -/
def trimAll (row : Rec) : Rec := row.map (fun p => (p.1, jsTrim p.2))

/-! ## Category classifier (source: `getSheetName`) -/

def getSheetName (fileName : String) : Option String :=
  let u := jsToUpper fileName
  if hasSub u "HSN" then some "hsn"
  else if hasSub u "B2CL" then some "b2cl"
  else if hasSub u "B2CS" then some "b2cs"
  else if hasSub u "B2B" then some "b2b"
  else if hasSub u "EXP" then some "export"
  else if hasSub u "EXEMP" then some "Nil_exempt_NonGST"
  else if hasSub u "CDNUR" then some "cdnur"
  else if hasSub u "CDNR" then some "cdnr"
  else none

/-- The classifier's keyword table as an ordered (keyword, category) list,
following the spec's description; used to relate `getSheetName` to a
first-match lookup. -/
def keywordTable : List (String × String) :=
  [("HSN", "hsn"), ("B2CL", "b2cl"), ("B2CS", "b2cs"), ("B2B", "b2b"),
   ("EXP", "export"), ("EXEMP", "Nil_exempt_NonGST"),
   ("CDNUR", "cdnur"), ("CDNR", "cdnr")]

/-! ## Value normalizer (source: `cleanPlaceOfSupply` and the
`parseFloat` / regex branch of `appendDataToSheet`) -/

/-- Source `cleanPlaceOfSupply`:
`value.toString().trim().replace(/^\d+-\s*/, '').trim()`.
The regex `^\d+-\s*` matches iff the string starts with a nonempty maximal
digit run immediately followed by `-` (greedy `\d+` cannot backtrack into a
successful match since `-` is not a digit), consuming the digits, the dash
and any following whitespace. -/
def cleanPlaceOfSupply (s : String) : String :=
  let t := (jsTrim s).data
  let stripped :=
    if !(t.takeWhile Char.isDigit).isEmpty &&
        ((t.dropWhile Char.isDigit).head? == some '-') then
      ((t.dropWhile Char.isDigit).tail).dropWhile jsWS
    else t
  jsTrim (String.mk stripped)

/-- `String(v).replace(/,/g, '')` -/
def stripCommas (s : String) : String :=
  String.mk (s.data.filter (fun c => !(c == ',')))

/-- The source regex test `String(v).match(/^-?\d+\.?\d*$/)`: optional
leading `-`, one or more digits, optionally a single `.` followed by zero or
more digits. -/
def matchesNumeric (s : String) : Bool :=
  let cs := if s.data.head? == some '-' then s.data.tail else s.data
  let ds := cs.takeWhile Char.isDigit
  let rest := cs.dropWhile Char.isDigit
  !ds.isEmpty && (rest.isEmpty || (rest.head? == some '.' && rest.tail.all Char.isDigit))

def digitsToNat (ds : List Char) : Nat :=
  ds.foldl (fun acc c => 10 * acc + (c.toNat - 48)) 0

/-- Sign, integer digits and fraction digits of a string matching
`^-?\d+\.?\d*$`. -/
def decParts (s : String) : Bool × List Char × List Char :=
  let neg := s.data.head? == some '-'
  let cs := if neg then s.data.tail else s.data
  let intPart := cs.takeWhile Char.isDigit
  let rest := cs.dropWhile Char.isDigit
  let fracPart := if rest.head? == some '.' then rest.tail else []
  (neg, intPart, fracPart)

/-- Exact value of `parseFloat` on a string matching `^-?\d+\.?\d*$`. -/
def parseDecimal (s : String) : ℚ :=
  let p := decParts s
  let mag : ℚ := (digitsToNat p.2.1 : ℚ) + (digitsToNat p.2.2 : ℚ) / (10 : ℚ) ^ p.2.2.length
  if p.1 then -mag else mag

/-- An `xlsx` cell: `{t: 'n', v: number}` or `{t: 's', v: string}`. -/
inductive Cell where
  | n (v : ℚ)
  | s (v : String)
deriving DecidableEq

/-- The cell-typing step of the source:
```
const numValue = parseFloat(String(finalValue).replace(/,/g, ''));
if (!isNaN(numValue) && String(finalValue).match(/^-?\d+\.?\d*$/)) {
  sheet[cellAddr] = { t: 'n', v: numValue };
} else {
  sheet[cellAddr] = { t: 's', v: String(finalValue).trim() };
}
```
The regex is tested on the value BEFORE comma-stripping.  When it succeeds
the value contains no comma, so the comma-stripping is the identity there
and `numValue = parseFloat v` is the exact decimal value (in particular not
NaN, so the `!isNaN` conjunct is implied); when the regex fails the text
branch is taken regardless of `numValue`.  Hence the branch condition
reduces to the regex test alone. -/
def inferCell (v : String) : Cell :=
  if matchesNumeric v then Cell.n (parseDecimal v) else Cell.s (jsTrim v)

/-! ## Sheets and workbooks -/

/-- A decoded `!ref` range `{s:{r,c}, e:{r,c}}`. -/
structure Rng where
  sr : Nat
  sc : Nat
  er : Nat
  ec : Nat
deriving DecidableEq

/-- A worksheet: its cell map (`none` = absent cell) and its `!ref` range. -/
structure Sheet where
  cells : Nat → Nat → Option Cell
  rng : Rng

/-- `cell.v.toString()`.  Numeric cells never occur as header cells in any
input of the claims; JS shortest-roundtrip number formatting is not
modelled (the `Rat` `toString` stands in). -/
def cellToString : Cell → String
  | Cell.s v => v
  | Cell.n q => toString q

def setCell (sh : Sheet) (r c : Nat) (cell : Cell) : Sheet :=
  { sh with cells := fun r' c' => if r' = r ∧ c' = c then some cell else sh.cells r' c' }

/-- The column indices `range.s.c .. range.e.c`. -/
def colRange (rng : Rng) : List Nat := List.range' rng.sc (rng.ec + 1 - rng.sc)

/-- `cell?.v?.toString().trim() ?? ''` over row 0 of the column range. -/
def templateHeaders (sh : Sheet) : List String :=
  (colRange sh.rng).map fun c =>
    match sh.cells 0 c with
    | some cell => jsTrim (cellToString cell)
    | none => ""

/-- `cell?.v !== undefined && cell?.v !== null && cell?.v !== ''` -/
def cellNonEmpty : Option Cell → Bool
  | some (Cell.s v) => !(v == "")
  | some (Cell.n _) => true
  | none => false

def rowHasData (sh : Sheet) (r : Nat) : Bool :=
  (colRange sh.rng).any fun c => cellNonEmpty (sh.cells r c)

/-- The `startRow` scan: rows `1 .. range.e.r`, `startRow` becomes
`row + 1` at every row with data, starting from 1. -/
def computeStartRow (sh : Sheet) : Nat :=
  (List.range' 1 sh.rng.er).foldl (fun acc r => if rowHasData sh r then r + 1 else acc) 1

/-! ## Schema registry and sheet merger (source: `columnMappings`,
`appendDataToSheet`) -/

/-- One category's mapping: csv column name → template header(s)
(`string | string[]` in the source; every entry is a single string, kept as
a singleton list mirroring `Array.isArray(excelCol) ? excelCol : [excelCol]`). -/
abbrev Mapping := List (String × List String)

/-- Value resolution for one template column:
exact field match, else the first mapping entry whose template side contains
the column and whose csv column is present in the record, else `''`. -/
def resolveValue (m : Mapping) (row : Rec) (h : String) : String :=
  match recGet row h with
  | some v => v
  | none =>
    match m.find? (fun e => e.2.contains h && (recGet row e.1).isSome) with
    | some e => (recGet row e.1).getD ""
    | none => ""

/-- The per-cell merge: empty resolved value → empty text cell; otherwise
place-of-supply cleaning when the template header contains
`'place of supply'` (lowercased), then the numeric/text inference. -/
def mergedCell (m : Mapping) (row : Rec) (h : String) : Cell :=
  let csvValue := resolveValue m row h
  if csvValue == "" then Cell.s ""
  else
    let finalValue :=
      if hasSub (jsToLower h) "place of supply" then cleanPlaceOfSupply csvValue
      else csvValue
    inferCell finalValue

/-- `templateHeaders.forEach((templateHeader, colIndex) => ...)`: one
record's row of writes; a blank template header is skipped. -/
def writeRecordCells (m : Mapping) (row : Rec) (sh : Sheet) (r : Nat)
    (cols : List (Nat × String)) : Sheet :=
  cols.foldl
    (fun sh2 jc => if jc.2 = "" then sh2 else setCell sh2 r jc.1 (mergedCell m row jc.2))
    sh

/-- `data.forEach((csvRow, rowIndex) => ...)`: record `i` writes row
`startRow + i`. -/
def writeRows (m : Mapping) (startRow : Nat) (cols : List (Nat × String))
    (sh : Sheet) (items : List (Nat × Rec)) : Sheet :=
  items.foldl (fun sh2 ir => writeRecordCells m ir.2 sh2 (startRow + ir.1) cols) sh

/-- Source `appendDataToSheet`.  After the writes,
`range.e.r = startRow + data.length - 1` and `!ref` is re-encoded (range
start and end column unchanged). -/
def appendDataToSheet (sh : Sheet) (data : List Rec) (m : Mapping) : Sheet :=
  if data.isEmpty then sh
  else
    let headers := templateHeaders sh
    let startRow := computeStartRow sh
    let sh2 := writeRows m startRow headers.enum sh data.enum
    { cells := sh2.cells, rng := { sh2.rng with er := startRow + data.length - 1 } }

/-! ## Fresh-sheet creation (library call `XLSX.utils.json_to_sheet` on
string-valued records) -/

/-- Header detection of `json_to_sheet`: keys of all rows in first-encounter
order. -/
def jsonHeaders (data : List Rec) : List String :=
  data.foldl (fun acc row => acc ++ ((row.map Prod.fst).filter (fun k => !(acc.contains k)))) []

/-- `XLSX.utils.json_to_sheet(data)` for records whose values are strings:
row 0 holds the headers as text cells, row `i + 1` holds row `i`'s values as
text cells (a missing key yields an absent cell), and `!ref` spans
`A1` through (row `data.length`, last header column). -/
def jsonToSheet (data : List Rec) : Sheet :=
  let headers := jsonHeaders data
  { cells := fun r c =>
      if r = 0 then (headers.get? c).map Cell.s
      else
        match data.get? (r - 1) with
        | some row =>
          match headers.get? c with
          | some h => (recGet row h).map Cell.s
          | none => none
        | none => none,
    rng := ⟨0, 0, data.length, headers.length - 1⟩ }

/-! ## Document assembler (source: `columnMappings`, `generateGSTR1Excel`) -/

structure Workbook where
  sheets : List (String × Sheet)

def wbLookup (wb : Workbook) (name : String) : Option Sheet :=
  (wb.sheets.find? (fun p => p.1 == name)).map Prod.snd

def wbUpdate (wb : Workbook) (name : String) (f : Sheet → Sheet) : Workbook :=
  ⟨wb.sheets.map (fun p => if p.1 == name then (p.1, f p.2) else p)⟩

/-- Source `columnMappings` (each value is a single template header in the
source literal, kept as a singleton list). -/
def columnMappings : List (String × Mapping) :=
  [("b2b",
    [("GSTIN/UIN of Recipient", ["GSTIN/UIN"]),
     ("Invoice Number", ["Invoice No"]),
     ("Invoice date", ["Date of Invoice"]),
     ("Invoice Value", ["Invoice Value"]),
     ("Rate", ["GST%"]),
     ("Taxable Value", ["Taxable Value"]),
     ("Cess Amount", ["CESS"]),
     ("Place Of Supply", ["Place Of Supply"]),
     ("Reverse Charge", ["RCM Applicable"]),
     ("Invoice Type", ["Invoice Type"]),
     ("E-Commerce GSTIN", ["E-Commerce GSTIN"])]),
   ("b2cl",
    [("Invoice Number", ["Invoice No"]),
     ("Invoice date", ["Date of Invoice"]),
     ("Invoice Value", ["Invoice Value"]),
     ("Place Of Supply", ["Place Of Supply"]),
     ("Rate", ["GST%"]),
     ("Taxable Value", ["Taxable Value"]),
     ("Cess Amount", ["CESS"]),
     ("E-Commerce GSTIN", ["E-Commerce GSTIN"])]),
   ("b2cs",
    [("Type", ["Type"]),
     ("Place Of Supply", ["Place Of Supply"]),
     ("Rate", ["GST%"]),
     ("Taxable Value", ["Taxable Value"]),
     ("Cess Amount", ["CESS"]),
     ("E-Commerce GSTIN", ["E-Commerce GSTIN"])]),
   ("export",
    [("Export Type", ["Export Type"]),
     ("Invoice Number", ["Invoice No"]),
     ("Invoice date", ["Date of Invoice"]),
     ("Invoice Value", ["Invoice Value"]),
     ("Port Code", ["Port Code"]),
     ("Shipping Bill Number", ["Shipping Bill No"]),
     ("Shipping Bill Date", ["Shipping Bill Date"]),
     ("Rate", ["GST%"]),
     ("Taxable Value", ["Taxable Value"])]),
   ("Nil_exempt_NonGST",
    [("Description", ["Description"]),
     ("Nil Rated Supplies", ["Nil Rated Supplies"]),
     ("Exempted (other than nil rated/non GST supply)",
      ["Exempted (other than nil rated/non GST supply)"]),
     ("Non-GST supplies", ["Non-GST Supplies"])]),
   ("cdnr",
    [("GSTIN/UIN of Recipient", ["GSTIN/UIN"]),
     ("Note Number", ["Dr./ Cr. No."]),
     ("Note Date", ["Dr./Cr. Date"]),
     ("Note Type", ["Type of note                (Dr/ Cr)"]),
     ("Place Of Supply", ["Place of supply"]),
     ("Reverse Charge", ["RCM"]),
     ("Note Supply Type", ["Invoice Type"]),
     ("Note Value", ["Dr./Cr. Value"]),
     ("Rate", ["GST%"]),
     ("Taxable Value", ["Taxable Value"]),
     ("Cess Amount", ["CESS"])]),
   ("cdnur",
    [("UR Type", ["Supply Type"]),
     ("Note/Refund Voucher Number", ["Dr./ Cr. Note No."]),
     ("Note/Refund Voucher date", ["Dr./ Cr. Note Date"]),
     ("Document Type", ["Type of note (Dr./ Cr.)"]),
     ("Place Of Supply", ["Place of supply"]),
     ("Note/Refund Voucher Value", ["Dr./Cr. Note Value"]),
     ("Rate", ["GST%"]),
     ("Taxable Value", ["Taxable Value"]),
     ("Cess Amount", ["CESS"])]),
   ("hsn",
    [("Type", ["Type"]),
     ("HSN", ["HSN"]),
     ("Description", ["Description"]),
     ("UQC", ["UQC"]),
     ("Total Quantity", ["Total Quantity"]),
     ("Total Value", ["Total Value"]),
     ("Rate", ["Rate"]),
     ("Taxable Value", ["Total Taxable Value"]),
     ("Integrated Tax Amount", ["IGST"]),
     ("Central Tax Amount", ["CGST"]),
     ("State/UT Tax Amount", ["SGST"]),
     ("Cess Amount", ["CESS"])])]

/-- `columnMappings[sheetName] || {}` -/
def mappingFor (sheetName : String) : Mapping :=
  ((columnMappings.find? (fun p => p.1 == sheetName)).map Prod.snd).getD []

/-- One iteration of the file loop of `generateGSTR1Excel`. -/
def processFile (wb : Workbook) (name content : String) : Workbook :=
  match getSheetName name with
  | none => wb
  | some sheetName =>
    let data := (parseCSV content).map trimAll
    if data.isEmpty then wb
    else
      match wbLookup wb sheetName with
      | none => ⟨wb.sheets ++ [(sheetName, jsonToSheet data)]⟩
      | some sh => wbUpdate wb sheetName (fun _ => appendDataToSheet sh data (mappingFor sheetName))

/-- `XLSX.utils.book_new()` -/
def emptyWorkbook : Workbook := ⟨[]⟩

/-- Source `generateGSTR1Excel` up to serialization.  `template` is the
result of decoding the base64 template asset: `none` models the `catch`
branch (`XLSX.read` or `atob` threw), which falls back to `book_new()`. -/
def generateGSTR1Excel (template : Option Workbook)
    (csvFiles : List (String × String)) : Workbook :=
  csvFiles.foldl (fun wb f => processFile wb f.1 f.2) (template.getD emptyWorkbook)

/-! ## Concrete fixtures used by witnesses and counterexamples -/

/-- A header-only template sheet whose single column header is "X". -/
def sheetX : Sheet :=
  { cells := fun r c => if r = 0 ∧ c = 0 then some (Cell.s "X") else none,
    rng := ⟨0, 0, 0, 0⟩ }

/-- A header-only template sheet whose single column header is
"Invoice Value". -/
def sheetInvoice : Sheet :=
  { cells := fun r c => if r = 0 ∧ c = 0 then some (Cell.s "Invoice Value") else none,
    rng := ⟨0, 0, 0, 0⟩ }

/-- A header-only template sheet whose single column header is "GSTIN/UIN"
(the b2b template column fed by csv column "GSTIN/UIN of Recipient"). -/
def sheetGstin : Sheet :=
  { cells := fun r c => if r = 0 ∧ c = 0 then some (Cell.s "GSTIN/UIN") else none,
    rng := ⟨0, 0, 0, 0⟩ }

/-- A template workbook holding only a "b2b" sheet. -/
def wbX : Workbook := ⟨[("b2b", sheetX)]⟩

/-! ## Helper lemmas: cell-level characterization of the merge loops -/

theorem setCell_cells (sh : Sheet) (r c : Nat) (cell : Cell) (r' c' : Nat) :
    (setCell sh r c cell).cells r' c' =
      if r' = r ∧ c' = c then some cell else sh.cells r' c' := rfl

theorem setCell_cells_self (sh : Sheet) (r c : Nat) (cell : Cell) :
    (setCell sh r c cell).cells r c = some cell := by
  rw [setCell_cells, if_pos ⟨rfl, rfl⟩]

theorem setCell_cells_ne (sh : Sheet) (r c : Nat) (cell : Cell) (r' c' : Nat)
    (hne : ¬(r' = r ∧ c' = c)) :
    (setCell sh r c cell).cells r' c' = sh.cells r' c' := by
  rw [setCell_cells, if_neg hne]

theorem writeRecordCells_cons (m : Mapping) (row : Rec) (sh : Sheet) (r : Nat)
    (jc : Nat × String) (cols : List (Nat × String)) :
    writeRecordCells m row sh r (jc :: cols) =
      writeRecordCells m row
        (if jc.2 = "" then sh else setCell sh r jc.1 (mergedCell m row jc.2)) r cols := rfl

theorem writeRecordCells_cells_ne_row (m : Mapping) (row : Rec) (r r' c' : Nat)
    (hr : r' ≠ r) :
    ∀ (cols : List (Nat × String)) (sh : Sheet),
      (writeRecordCells m row sh r cols).cells r' c' = sh.cells r' c' := by
  intro cols
  induction cols with
  | nil => intro sh; rfl
  | cons jc cols ih =>
    intro sh
    rw [writeRecordCells_cons, ih]
    by_cases h : jc.2 = ""
    · rw [if_pos h]
    · rw [if_neg h, setCell_cells_ne]
      rintro ⟨h1, _⟩
      exact hr h1

theorem writeRecordCells_cells_notCol (m : Mapping) (row : Rec) (r r' c' : Nat) :
    ∀ (cols : List (Nat × String)) (sh : Sheet), c' ∉ cols.map Prod.fst →
      (writeRecordCells m row sh r cols).cells r' c' = sh.cells r' c' := by
  intro cols
  induction cols with
  | nil => intro sh _; rfl
  | cons jc cols ih =>
    intro sh hc
    simp only [List.map_cons, List.mem_cons] at hc
    push_neg at hc
    rw [writeRecordCells_cons, ih _ hc.2]
    by_cases h : jc.2 = ""
    · rw [if_pos h]
    · rw [if_neg h, setCell_cells_ne]
      rintro ⟨_, h2⟩
      exact hc.1 h2

/-- The cell written for one record at a column of its row: with
duplicate-free column indices, column `j` carrying header `h` ends up
unchanged when `h` is blank and holding `mergedCell` otherwise. -/
theorem writeRecordCells_cells_mem (m : Mapping) (row : Rec) (r : Nat) :
    ∀ (cols : List (Nat × String)) (sh : Sheet) (j : Nat) (h : String),
      (cols.map Prod.fst).Nodup → (j, h) ∈ cols →
      (writeRecordCells m row sh r cols).cells r j =
        if h = "" then sh.cells r j else some (mergedCell m row h) := by
  intro cols
  induction cols with
  | nil => intro sh j h _ hmem; cases hmem
  | cons jc cols ih =>
    intro sh j h hnd hmem
    simp only [List.map_cons, List.nodup_cons] at hnd
    rcases List.mem_cons.mp hmem with heq | htail
    · cases heq
      rw [writeRecordCells_cons,
        writeRecordCells_cells_notCol m row r r j _ _ hnd.1]
      by_cases h0 : h = ""
      · rw [if_pos h0, if_pos h0]
      · rw [if_neg h0, if_neg h0, setCell_cells_self]
    · have hj : j ≠ jc.1 := by
        intro hj
        exact hnd.1 (hj ▸ List.mem_map_of_mem Prod.fst htail)
      rw [writeRecordCells_cons, ih _ j h hnd.2 htail]
      by_cases h0 : h = ""
      · rw [if_pos h0, if_pos h0]
        by_cases h1 : jc.2 = ""
        · rw [if_pos h1]
        · rw [if_neg h1, setCell_cells_ne]
          rintro ⟨_, h2⟩
          exact hj h2
      · rw [if_neg h0, if_neg h0]


theorem writeRows_cons (m : Mapping) (startRow : Nat) (cols : List (Nat × String))
    (sh : Sheet) (ir : Nat × Rec) (items : List (Nat × Rec)) :
    writeRows m startRow cols sh (ir :: items) =
      writeRows m startRow cols (writeRecordCells m ir.2 sh (startRow + ir.1) cols) items := rfl

/-- Rows not targeted by any record are untouched by the record loop. -/
theorem writeRows_cells_notRow (m : Mapping) (startRow : Nat) (cols : List (Nat × String))
    (r' c' : Nat) :
    ∀ (items : List (Nat × Rec)) (sh : Sheet), (∀ ir ∈ items, startRow + ir.1 ≠ r') →
      (writeRows m startRow cols sh items).cells r' c' = sh.cells r' c' := by
  intro items
  induction items with
  | nil => intro sh _; rfl
  | cons ir items ih =>
    intro sh hr
    rw [writeRows_cons, ih _ (fun x hx => hr x (List.mem_cons_of_mem _ hx))]
    exact writeRecordCells_cells_ne_row m ir.2 (startRow + ir.1) r' c'
      (fun h => hr ir (List.mem_cons_self _ _) h.symm) cols sh

/-- The record loop: with duplicate-free record indices, the cell of record
`i` at column `j` (header `h`) is `mergedCell` for a non-blank header and
untouched for a blank one. -/
theorem writeRows_cells_mem (m : Mapping) (startRow : Nat) (cols : List (Nat × String))
    (j : Nat) (h : String) (hcols : (cols.map Prod.fst).Nodup) (hjh : (j, h) ∈ cols) :
    ∀ (items : List (Nat × Rec)) (sh : Sheet) (i : Nat) (rec : Rec),
      (items.map Prod.fst).Nodup → (i, rec) ∈ items →
      (writeRows m startRow cols sh items).cells (startRow + i) j =
        if h = "" then sh.cells (startRow + i) j else some (mergedCell m rec h) := by
  intro items
  induction items with
  | nil => intro sh i rec _ hmem; cases hmem
  | cons ir items ih =>
    intro sh i rec hnd hmem
    simp only [List.map_cons, List.nodup_cons] at hnd
    rcases List.mem_cons.mp hmem with heq | htail
    · subst heq
      rw [writeRows_cons,
        writeRows_cells_notRow m startRow cols (startRow + i) j items _ ?hrows]
      case hrows =>
        intro x hx hcontra
        have hx1 : x.1 = i := Nat.add_left_cancel hcontra
        have hmm := List.mem_map_of_mem Prod.fst hx
        rw [hx1] at hmm
        exact hnd.1 hmm
      exact writeRecordCells_cells_mem m rec (startRow + i) cols sh j h hcols hjh
    · have hi : i ≠ ir.1 := by
        intro hi
        exact hnd.1 (hi ▸ List.mem_map_of_mem Prod.fst htail)
      rw [writeRows_cons, ih _ i rec hnd.2 htail]
      by_cases h0 : h = ""
      · simp only [if_pos h0]
        exact writeRecordCells_cells_ne_row m ir.2 (startRow + ir.1) (startRow + i) j
          (fun hc => hi (Nat.add_left_cancel hc)) cols sh
      · simp [h0]

/-! ## Helper lemmas: the start-row scan -/

/-- The scan `startRow := 1; for r in l, if p r then startRow := r + 1`
computes "last matching element + 1, else the initial value". -/
theorem foldl_scan_eq (p : Nat → Bool) :
    ∀ (l : List Nat) (a : Nat),
      l.foldl (fun acc r => if p r then r + 1 else acc) a =
        (((l.filter p).getLast?).map (fun x => x + 1)).getD a := by
  intro l
  induction l with
  | nil => intro a; rfl
  | cons x xs ih =>
    intro a
    rw [List.foldl_cons, ih]
    cases hx : p x with
    | false => simp [List.filter_cons, hx]
    | true =>
      simp only [List.filter_cons, hx, if_true]
      cases hfx : xs.filter p with
      | nil => simp [hfx]
      | cons y ys =>
        rw [List.getLast?_cons_cons]
        cases hgl : (y :: ys).getLast? with
        | none => rw [List.getLast?_cons] at hgl; cases hgl
        | some lastRow => simp

theorem computeStartRow_eq (sh : Sheet) :
    computeStartRow sh =
      ((((List.range' 1 sh.rng.er).filter (rowHasData sh)).getLast?).map
        (fun x => x + 1)).getD 1 :=
  foldl_scan_eq (rowHasData sh) (List.range' 1 sh.rng.er) 1

theorem one_le_computeStartRow (sh : Sheet) : 1 ≤ computeStartRow sh := by
  rw [computeStartRow_eq]
  cases ((List.range' 1 sh.rng.er).filter (rowHasData sh)).getLast? with
  | none => exact Nat.le_refl 1
  | some lastRow => exact Nat.succ_le_succ (Nat.zero_le lastRow)

/-- A member of a `(· ≤ ·)`-pairwise list is at most its last element. -/
theorem le_getLast?_of_mem :
    ∀ (l : List Nat), l.Pairwise (· ≤ ·) → ∀ x ∈ l,
      ∃ lastRow, l.getLast? = some lastRow ∧ x ≤ lastRow := by
  intro l
  induction l with
  | nil => intro _ x hx; cases hx
  | cons y ys ih =>
    intro hp x hx
    rcases List.pairwise_cons.mp hp with ⟨hy, hys⟩
    cases ys with
    | nil =>
      rcases List.mem_singleton.mp hx with rfl
      exact ⟨x, rfl, Nat.le_refl x⟩
    | cons z zs =>
      have hzm : z ∈ z :: zs := List.mem_cons_self z zs
      rcases List.mem_cons.mp hx with rfl | hx2
      · rcases ih hys z hzm with ⟨lastRow, hl, _⟩
        have hlm : lastRow ∈ z :: zs := by
          rcases List.mem_getLast?_eq_getLast (Option.mem_def.mpr hl) with ⟨hne, heq⟩
          rw [heq]
          exact List.getLast_mem hne
        exact ⟨lastRow, by rw [List.getLast?_cons_cons, hl], hy lastRow hlm⟩
      · rcases ih hys x hx2 with ⟨lastRow, hl, hle⟩
        exact ⟨lastRow, by rw [List.getLast?_cons_cons, hl], hle⟩

/-- Any in-range row with data lies strictly below the computed start row. -/
theorem lt_computeStartRow_of_data (sh : Sheet) (r : Nat)
    (h1 : 1 ≤ r) (h2 : r ≤ sh.rng.er) (hdata : rowHasData sh r = true) :
    r < computeStartRow sh := by
  have hmem : r ∈ (List.range' 1 sh.rng.er).filter (rowHasData sh) := by
    rw [List.mem_filter]
    exact ⟨List.mem_range'_1.mpr ⟨h1, by omega⟩, hdata⟩
  have hpw : ((List.range' 1 sh.rng.er).filter (rowHasData sh)).Pairwise (· ≤ ·) := by
    refine List.Pairwise.filter _ ?_
    refine List.Pairwise.imp (fun h => Nat.le_of_lt h) ?_
    exact List.pairwise_lt_range' 1 sh.rng.er
  rcases le_getLast?_of_mem _ hpw r hmem with ⟨lastRow, hl, hle⟩
  rw [computeStartRow_eq, hl]
  exact Nat.lt_succ_of_le hle

/-! ## Helper lemmas: `appendDataToSheet` unfolded -/

theorem appendDataToSheet_nil (sh : Sheet) (m : Mapping) :
    appendDataToSheet sh [] m = sh := rfl

theorem appendDataToSheet_cells (sh : Sheet) (data : List Rec) (m : Mapping)
    (hne : data ≠ []) :
    (appendDataToSheet sh data m).cells =
      (writeRows m (computeStartRow sh) (templateHeaders sh).enum sh data.enum).cells := by
  rw [appendDataToSheet, if_neg (by simpa using hne)]

theorem appendDataToSheet_rng (sh : Sheet) (data : List Rec) (m : Mapping)
    (hne : data ≠ []) :
    (appendDataToSheet sh data m).rng =
      { (writeRows m (computeStartRow sh) (templateHeaders sh).enum sh data.enum).rng with
          er := computeStartRow sh + data.length - 1 } := by
  rw [appendDataToSheet, if_neg (by simpa using hne)]

/-- `writeRows` never changes the range. -/
theorem writeRows_rng (m : Mapping) (startRow : Nat) (cols : List (Nat × String)) :
    ∀ (items : List (Nat × Rec)) (sh : Sheet),
      (writeRows m startRow cols sh items).rng = sh.rng := by
  intro items
  induction items with
  | nil => intro sh; rfl
  | cons ir items ih =>
    intro sh
    rw [writeRows_cons, ih]
    clear ih
    induction cols generalizing sh with
    | nil => rfl
    | cons jc cols ihc =>
      rw [writeRecordCells_cons, ihc]
      by_cases h : jc.2 = ""
      · rw [if_pos h]
      · rw [if_neg h]; rfl

/-- Cells of the merged sheet at rows outside `[startRow, startRow + |data|)`
are those of the input sheet. -/
theorem appendDataToSheet_cells_frame (sh : Sheet) (data : List Rec) (m : Mapping)
    (r c : Nat) (hr : r < computeStartRow sh ∨ computeStartRow sh + data.length ≤ r) :
    (appendDataToSheet sh data m).cells r c = sh.cells r c := by
  by_cases hd : data = []
  · rw [hd, appendDataToSheet_nil]
  · rw [appendDataToSheet_cells sh data m hd, writeRows_cells_notRow]
    intro ir hir hcontra
    have hg : data.get? ir.1 = some ir.2 := List.mem_enum_iff_get?.mp hir
    have h1 : ir.1 < data.length := (List.get?_eq_some.mp hg).1
    omega

/-- The cell written for record `i` at template column `j`. -/
theorem appendDataToSheet_cells_at (sh : Sheet) (data : List Rec) (m : Mapping)
    (i : Nat) (rec : Rec) (hi : data.get? i = some rec)
    (j : Nat) (h : String) (hj : (templateHeaders sh).get? j = some h) :
    (appendDataToSheet sh data m).cells (computeStartRow sh + i) j =
      if h = "" then sh.cells (computeStartRow sh + i) j
      else some (mergedCell m rec h) := by
  have hne : data ≠ [] := by
    intro hd; rw [hd] at hi; cases hi
  rw [appendDataToSheet_cells sh data m hne]
  exact writeRows_cells_mem m (computeStartRow sh) (templateHeaders sh).enum j h
    (by rw [List.enum_map_fst]; exact List.nodup_range _)
    (List.mk_mem_enum_iff_get?.mpr hj)
    data.enum sh i rec
    (by rw [List.enum_map_fst]; exact List.nodup_range _)
    (List.mk_mem_enum_iff_get?.mpr hi)

/-! ## Helper lemmas: records built by `mkRecord` -/

theorem objInsert_of_notMem (k v : String) (row : Rec) (h : ∀ p ∈ row, p.1 ≠ k) :
    objInsert k v row = row ++ [(k, v)] := by
  rw [objInsert, if_neg]
  intro hcontra
  rcases List.any_eq_true.mp hcontra with ⟨p, hp, hpk⟩
  exact h p hp (by simpa using hpk)

theorem foldl_objInsert_eq :
    ∀ (items : List (Nat × String)) (acc : Rec) (values : List String),
      (items.map Prod.snd).Nodup → (∀ ih ∈ items, ∀ p ∈ acc, p.1 ≠ ih.2) →
      items.foldl (fun row ih => objInsert ih.2 (values.getD ih.1 "") row) acc =
        acc ++ items.map (fun ih => (ih.2, values.getD ih.1 "")) := by
  intro items
  induction items with
  | nil => intro acc values _ _; simp
  | cons x items ih =>
    intro acc values hnd hacc
    simp only [List.map_cons, List.nodup_cons] at hnd
    rw [List.foldl_cons,
      objInsert_of_notMem x.2 _ acc (fun p hp => hacc x (List.mem_cons_self _ _) p hp),
      ih _ values hnd.2 ?hnext]
    case hnext =>
      intro y hy p hp
      rcases List.mem_append.mp hp with hp1 | hp2
      · exact hacc y (List.mem_cons_of_mem _ hy) p hp1
      · rcases List.mem_singleton.mp hp2 with rfl
        intro hcontra
        have hmm := List.mem_map_of_mem Prod.snd hy
        rw [← hcontra] at hmm
        exact hnd.1 hmm
    simp

theorem mkRecord_eq (headers values : List String) (hnd : headers.Nodup) :
    mkRecord headers values =
      headers.enum.map (fun ih => (ih.2, values.getD ih.1 "")) := by
  rw [mkRecord, foldl_objInsert_eq headers.enum [] values
    (by rw [List.enum_map_snd]; exact hnd) (by intro _ _ p hp; cases hp)]
  rfl

theorem find?_map_keyed :
    ∀ (items : List (Nat × String)) (g : Nat × String → String) (i : Nat) (h : String),
      (items.map Prod.snd).Nodup → (i, h) ∈ items →
      (items.map (fun ih => (ih.2, g ih))).find? (fun p => p.1 == h) = some (h, g (i, h)) := by
  intro items
  induction items with
  | nil => intro g i h _ hmem; cases hmem
  | cons x items ih =>
    intro g i h hnd hmem
    simp only [List.map_cons, List.nodup_cons] at hnd
    rcases List.mem_cons.mp hmem with heq | htail
    · cases heq
      rw [List.map_cons, List.find?_cons]
      simp
    · have hx : x.2 ≠ h := by
        intro hcontra
        exact hnd.1 (hcontra ▸ List.mem_map_of_mem Prod.snd htail)
      rw [List.map_cons, List.find?_cons]
      have : ((x.2, g x).1 == h) = false := by
        simp only [beq_eq_false_iff_ne, ne_eq]
        exact hx
      rw [this]
      exact ih g i h hnd.2 htail

/-- In a record built by `mkRecord` from duplicate-free headers, the header
at position `i` maps to field `i` of the row (missing fields default to the
empty string; fields beyond the header count are never consulted). -/
theorem recGet_mkRecord (headers values : List String) (hnd : headers.Nodup)
    (i : Nat) (h : String) (hi : headers.get? i = some h) :
    recGet (mkRecord headers values) h = some (values.getD i "") := by
  rw [recGet, mkRecord_eq headers values hnd,
    find?_map_keyed headers.enum _ i h
      (by rw [List.enum_map_snd]; exact hnd)
      (List.mk_mem_enum_iff_get?.mpr hi)]
  rfl

/-! ## Helper lemmas: trimming and the place-of-supply regex -/

theorem dropWhile_dropWhile (p : Char → Bool) :
    ∀ (l : List Char), (l.dropWhile p).dropWhile p = l.dropWhile p := by
  intro l
  induction l with
  | nil => rfl
  | cons a l ih =>
    rw [List.dropWhile_cons]
    by_cases ha : p a = true
    · rw [if_pos ha]; exact ih
    · rw [if_neg ha, List.dropWhile_cons, if_neg ha]

theorem dropWhile_getLast?_of_ne_nil (p : Char → Bool) (l : List Char)
    (hne : l.dropWhile p ≠ []) : (l.dropWhile p).getLast? = l.getLast? := by
  rcases List.dropWhile_suffix (l := l) p with ⟨t, ht⟩
  conv_rhs => rw [← ht]
  rw [List.getLast?_append]
  cases hgl : (l.dropWhile p).getLast? with
  | none => exact absurd (List.getLast?_eq_none_iff.mp hgl) hne
  | some x => rfl

theorem head?_dropWhile_ws (p : Char → Bool) :
    ∀ (l : List Char) (x : Char), (l.dropWhile p).head? = some x → p x = false := by
  intro l
  induction l with
  | nil => intro x hx; cases hx
  | cons a l ih =>
    intro x hx
    rw [List.dropWhile_cons] at hx
    by_cases ha : p a = true
    · rw [if_pos ha] at hx; exact ih x hx
    · rw [if_neg ha] at hx
      cases hx
      simpa using ha

theorem dropWhile_of_head?_fails (p : Char → Bool) (l : List Char)
    (h : ∀ x, l.head? = some x → p x = false) : l.dropWhile p = l := by
  cases l with
  | nil => rfl
  | cons a l =>
    rw [List.dropWhile_cons, if_neg]
    simp [h a rfl]

theorem trimChars_idem (cs : List Char) : trimChars (trimChars cs) = trimChars cs := by
  have step1 : (trimChars cs).dropWhile jsWS = trimChars cs := by
    apply dropWhile_of_head?_fails
    intro x hx
    rw [trimChars] at hx
    rw [List.head?_reverse] at hx
    by_cases hdw : ((cs.dropWhile jsWS).reverse.dropWhile jsWS) = []
    · rw [hdw] at hx; cases hx
    · rw [dropWhile_getLast?_of_ne_nil jsWS _ hdw, ← List.head?_reverse,
        List.reverse_reverse] at hx
      exact head?_dropWhile_ws jsWS cs x hx
  rw [trimChars, step1]
  conv_lhs => rw [trimChars]
  rw [List.reverse_reverse, dropWhile_dropWhile]
  rfl

theorem jsTrim_jsTrim (s : String) : jsTrim (jsTrim s) = jsTrim s := by
  show String.mk (trimChars (trimChars s.data)) = String.mk (trimChars s.data)
  rw [trimChars_idem]

theorem takeWhile_append_of_all (p : Char → Bool) :
    ∀ (ds : List Char) (x : Char) (rest : List Char),
      (∀ c ∈ ds, p c = true) → p x = false →
      (ds ++ x :: rest).takeWhile p = ds ∧ (ds ++ x :: rest).dropWhile p = x :: rest := by
  intro ds
  induction ds with
  | nil =>
    intro x rest _ hx
    constructor
    · rw [List.nil_append, List.takeWhile_cons, if_neg (by simp [hx])]
    · rw [List.nil_append, List.dropWhile_cons, if_neg (by simp [hx])]
  | cons d ds ih =>
    intro x rest hall hx
    have hd : p d = true := hall d (List.mem_cons_self _ _)
    have htail := ih x rest (fun c hc => hall c (List.mem_cons_of_mem _ hc)) hx
    constructor
    · rw [List.cons_append, List.takeWhile_cons, if_pos hd, htail.1]
    · rw [List.cons_append, List.dropWhile_cons, if_pos hd, htail.2]

/-- The condition of the modelled regex `^\d+-\s*` holds exactly when the
string decomposes as a nonempty all-digit block, a dash, and a remainder. -/
theorem codeDash_iff (t : List Char) :
    (!(t.takeWhile Char.isDigit).isEmpty &&
        ((t.dropWhile Char.isDigit).head? == some '-')) = true ↔
      ∃ ds rest, t = ds ++ '-' :: rest ∧ ds ≠ [] ∧ ∀ c ∈ ds, c.isDigit = true := by
  constructor
  · intro h
    rw [Bool.and_eq_true] at h
    obtain ⟨h1, h2⟩ := h
    have hne : t.takeWhile Char.isDigit ≠ [] := by
      intro hcontra
      rw [hcontra] at h1
      cases h1
    have hhd : (t.dropWhile Char.isDigit).head? = some '-' := by
      simpa using h2
    refine ⟨t.takeWhile Char.isDigit, (t.dropWhile Char.isDigit).tail, ?_, hne, ?_⟩
    · conv_lhs => rw [← List.takeWhile_append_dropWhile (p := Char.isDigit) (l := t)]
      congr 1
      cases hdw : t.dropWhile Char.isDigit with
      | nil => rw [hdw] at hhd; cases hhd
      | cons a l =>
        rw [hdw] at hhd
        cases hhd
        rfl
    · intro c hc
      exact List.mem_takeWhile_imp hc
  · rintro ⟨ds, rest, rfl, hne, hall⟩
    rcases takeWhile_append_of_all Char.isDigit ds '-' rest hall (by decide) with ⟨h1, h2⟩
    rw [Bool.and_eq_true, h1, h2]
    constructor
    · cases ds with
      | nil => exact absurd rfl hne
      | cons _ _ => rfl
    · rfl

/-! ## Helper lemmas: workbook frame -/

theorem wbLookup_append_ne (wb : Workbook) (cat : String) (sh : Sheet) (n : String)
    (hne : n ≠ cat) :
    wbLookup ⟨wb.sheets ++ [(cat, sh)]⟩ n = wbLookup wb n := by
  rw [wbLookup, wbLookup, List.find?_append]
  cases hf : wb.sheets.find? (fun p => p.1 == n) with
  | some p => rfl
  | none =>
    simp only [Option.none_or]
    rw [List.find?_cons_of_neg _ (by simpa using fun h => hne h.symm), List.find?_nil]

theorem wbLookup_wbUpdate_ne (wb : Workbook) (cat : String) (f : Sheet → Sheet)
    (n : String) (hne : n ≠ cat) :
    wbLookup (wbUpdate wb cat f) n = wbLookup wb n := by
  show Option.map Prod.snd
      ((wb.sheets.map (fun p => if p.1 == cat then (p.1, f p.2) else p)).find?
        (fun p => p.1 == n)) =
    Option.map Prod.snd (wb.sheets.find? (fun p => p.1 == n))
  induction wb.sheets with
  | nil => rfl
  | cons p ps ih =>
    rw [List.map_cons]
    have hfst : (if p.1 == cat then (p.1, f p.2) else p).1 = p.1 := by
      by_cases hp : p.1 = cat
      · simp [hp]
      · simp [hp]
    cases hpn : (p.1 == n) with
    | true =>
      have hp1n : p.1 = n := eq_of_beq hpn
      have hp : ¬p.1 = cat := by
        intro hc
        exact hne (hp1n ▸ hc)
      have hife : (if p.1 == cat then (p.1, f p.2) else p) = p := by
        simp [hp]
      rw [hife,
        @List.find?_cons_of_pos _ (fun q => q.1 == n) p
          (ps.map (fun q => if q.1 == cat then (q.1, f q.2) else q)) hpn,
        @List.find?_cons_of_pos _ (fun q => q.1 == n) p ps hpn]
    | false =>
      have hmapped : ¬((if p.1 == cat then (p.1, f p.2) else p).1 == n) = true := by
        rw [hfst]
        simp [hpn]
      rw [@List.find?_cons_of_neg _ (fun q => q.1 == n)
          (if p.1 == cat then (p.1, f p.2) else p)
          (ps.map (fun q => if q.1 == cat then (q.1, f q.2) else q)) hmapped,
        @List.find?_cons_of_neg _ (fun q => q.1 == n) p ps (by simp [hpn])]
      exact ih

theorem wbUpdate_names (wb : Workbook) (cat : String) (f : Sheet → Sheet) :
    (wbUpdate wb cat f).sheets.map Prod.fst = wb.sheets.map Prod.fst := by
  rw [wbUpdate, List.map_map]
  apply List.map_congr_left
  intro p _
  by_cases hp : p.1 = cat
  · simp [hp]
  · simp [hp]

/-! ## Claim theorems -/

/-- C9: if decoding the template blob fails (modelled by the `none`
argument), `generateGSTR1Excel` falls back to a fresh empty workbook with
zero sheets and still folds over ALL input files; it always returns a
workbook (the model is a total function). -/
theorem C9_template_fallback (csvFiles : List (String × String)) :
    generateGSTR1Excel none csvFiles =
      csvFiles.foldl (fun wb f => processFile wb f.1 f.2) emptyWorkbook ∧
    emptyWorkbook.sheets = [] ∧
    generateGSTR1Excel none csvFiles = generateGSTR1Excel (some emptyWorkbook) csvFiles :=
  ⟨rfl, rfl, rfl⟩

/-- C10: processing one file mutates at most the sheet named by the file's
classified category: the lookup of every other sheet name is unchanged, and
the sheet-name order is unchanged except possibly for appending the
category's newly created sheet. -/
theorem C10_frame (wb : Workbook) (name content : String) :
    (∀ n, getSheetName name ≠ some n →
      wbLookup (processFile wb name content) n = wbLookup wb n) ∧
    ((processFile wb name content).sheets.map Prod.fst = wb.sheets.map Prod.fst ∨
      ∃ cat, getSheetName name = some cat ∧
        (processFile wb name content).sheets.map Prod.fst =
          wb.sheets.map Prod.fst ++ [cat]) := by
  cases hc : getSheetName name with
  | none =>
    have hpf : processFile wb name content = wb := by
      simp only [processFile, hc]
    rw [hpf]
    exact ⟨fun n _ => rfl, Or.inl rfl⟩
  | some cat =>
    by_cases hdata : ((parseCSV content).map trimAll).isEmpty = true
    · have hpf : processFile wb name content = wb := by
        simp only [processFile, hc, hdata, if_true]
      rw [hpf]
      exact ⟨fun n _ => rfl, Or.inl rfl⟩
    · cases hlk : wbLookup wb cat with
      | none =>
        have hpf : processFile wb name content =
            ⟨wb.sheets ++ [(cat, jsonToSheet ((parseCSV content).map trimAll))]⟩ := by
          simp only [processFile, hc, hdata, hlk, if_false, Bool.false_eq_true]
        rw [hpf]
        constructor
        · intro n hn
          refine wbLookup_append_ne wb cat _ n ?_
          intro h
          subst h
          exact hn rfl
        · exact Or.inr ⟨cat, rfl, by simp⟩
      | some sh =>
        have hpf : processFile wb name content =
            wbUpdate wb cat
              (fun _ => appendDataToSheet sh ((parseCSV content).map trimAll)
                (mappingFor cat)) := by
          simp only [processFile, hc, hdata, hlk, if_false, Bool.false_eq_true]
        rw [hpf]
        constructor
        · intro n hn
          refine wbLookup_wbUpdate_ne wb cat _ n ?_
          intro h
          subst h
          exact hn rfl
        · exact Or.inl (wbUpdate_names wb cat _)

/-- C10 witness: a b2b file leaves the lookup of the unrelated "hsn" sheet
name unchanged. -/
theorem C10_frame_witness :
    wbLookup (processFile wbX "b2b_x.csv" "X\nv") "hsn" = wbLookup wbX "hsn" :=
  (C10_frame wbX "b2b_x.csv" "X\nv").1 "hsn" (by decide)

/-- C8: the classifier uppercases the file name and takes the first match of
the fixed ordered keyword table; an unmatched file yields `none` and is
skipped by the assembler without mutating any sheet, in particular
"readme.csv". -/
theorem C8_classifier (fileName : String) :
    getSheetName fileName =
      (keywordTable.find? (fun kv => hasSub (jsToUpper fileName) kv.1)).map Prod.snd ∧
    (∀ wb content, getSheetName fileName = none → processFile wb fileName content = wb) ∧
    getSheetName "readme.csv" = none := by
  refine ⟨?_, ?_, by decide⟩
  · simp only [getSheetName, keywordTable]
    by_cases h1 : hasSub (jsToUpper fileName) "HSN" = true
    · rw [if_pos h1, List.find?_cons_of_pos _ (by simpa using h1)]; rfl
    rw [if_neg h1, List.find?_cons_of_neg _ (by simpa using h1)]
    by_cases h2 : hasSub (jsToUpper fileName) "B2CL" = true
    · rw [if_pos h2, List.find?_cons_of_pos _ (by simpa using h2)]; rfl
    rw [if_neg h2, List.find?_cons_of_neg _ (by simpa using h2)]
    by_cases h3 : hasSub (jsToUpper fileName) "B2CS" = true
    · rw [if_pos h3, List.find?_cons_of_pos _ (by simpa using h3)]; rfl
    rw [if_neg h3, List.find?_cons_of_neg _ (by simpa using h3)]
    by_cases h4 : hasSub (jsToUpper fileName) "B2B" = true
    · rw [if_pos h4, List.find?_cons_of_pos _ (by simpa using h4)]; rfl
    rw [if_neg h4, List.find?_cons_of_neg _ (by simpa using h4)]
    by_cases h5 : hasSub (jsToUpper fileName) "EXP" = true
    · rw [if_pos h5, List.find?_cons_of_pos _ (by simpa using h5)]; rfl
    rw [if_neg h5, List.find?_cons_of_neg _ (by simpa using h5)]
    by_cases h6 : hasSub (jsToUpper fileName) "EXEMP" = true
    · rw [if_pos h6, List.find?_cons_of_pos _ (by simpa using h6)]; rfl
    rw [if_neg h6, List.find?_cons_of_neg _ (by simpa using h6)]
    by_cases h7 : hasSub (jsToUpper fileName) "CDNUR" = true
    · rw [if_pos h7, List.find?_cons_of_pos _ (by simpa using h7)]; rfl
    rw [if_neg h7, List.find?_cons_of_neg _ (by simpa using h7)]
    by_cases h8 : hasSub (jsToUpper fileName) "CDNR" = true
    · rw [if_pos h8, List.find?_cons_of_pos _ (by simpa using h8)]; rfl
    rw [if_neg h8, List.find?_cons_of_neg _ (by simpa using h8), List.find?_nil]
    rfl
  · intro wb content h
    simp only [processFile, h]

/-- C8 witness: the unclassified file "readme.csv" leaves the workbook
untouched. -/
theorem C8_classifier_witness :
    processFile wbX "readme.csv" "X\nv" = wbX :=
  (C8_classifier "readme.csv").2.1 wbX "X\nv" (C8_classifier "readme.csv").2.2

/-- C7: with at most one line `parseCSV` returns `[]` (not an error); with
two or more lines the first line is the header row, blank rows are skipped,
and each record maps the header at position `i` (duplicate-free headers) to
trimmed field `i`, defaulting to `""` for short rows; extra fields are
discarded, and the record's keys are exactly the headers in order. -/
theorem C7_parse_contract (text : String) :
    ((csvLines text).length ≤ 1 → parseCSV text = []) ∧
    (2 ≤ (csvLines text).length →
      parseCSV text =
        ((csvLines text).tail.filter (fun l => !(jsTrim l == ""))).map
          (fun line => mkRecord (parseLine ((csvLines text).headD "")) (parseLine line))) ∧
    (∀ headers values : List String, headers.Nodup →
      ∀ i h, headers.get? i = some h →
        recGet (mkRecord headers values) h = some (values.getD i "")) ∧
    (∀ headers values : List String, headers.Nodup →
      (mkRecord headers values).map Prod.fst = headers) := by
  refine ⟨?_, ?_, ?_, ?_⟩
  · intro hle
    rw [parseCSV, if_pos hle]
  · intro hge
    rw [parseCSV, if_neg (by omega)]
  · intro headers values hnd i h hi
    exact recGet_mkRecord headers values hnd i h hi
  · intro headers values hnd
    rw [mkRecord_eq headers values hnd, List.map_map]
    have : (Prod.fst ∘ fun ih : Nat × String => (ih.2, values.getD ih.1 "")) = Prod.snd := by
      funext ih
      rfl
    rw [this, List.enum_map_snd]

/-- C7 witness: the empty input parses to no records, and a short row
defaults the missing second field to the empty string. -/
theorem C7_parse_contract_witness :
    parseCSV "" = [] ∧
    recGet (mkRecord ["a", "b"] ["1"]) "b" = some "" ∧
    (mkRecord ["a", "b"] ["1"]).map Prod.fst = ["a", "b"] :=
  ⟨(C7_parse_contract "").1 (by decide),
   (C7_parse_contract "").2.2.1 ["a", "b"] ["1"] (by decide) 1 "b" (by decide),
   (C7_parse_contract "").2.2.2 ["a", "b"] ["1"] (by decide)⟩

/-- C5: the merge never writes to the header row 0; any cell it changes is
at a row at or beyond the append start row; and the append start row is
"last scanned row (1..e.r) containing a non-empty cell, plus 1", or 1 for a
header-only sheet — in particular it is always at least 1. -/
theorem C5_header_preserved (sh : Sheet) (data : List Rec) (m : Mapping) :
    (∀ c, (appendDataToSheet sh data m).cells 0 c = sh.cells 0 c) ∧
    (∀ r c, (appendDataToSheet sh data m).cells r c ≠ sh.cells r c →
      computeStartRow sh ≤ r) ∧
    computeStartRow sh =
      ((((List.range' 1 sh.rng.er).filter (rowHasData sh)).getLast?).map
        (fun x => x + 1)).getD 1 ∧
    1 ≤ computeStartRow sh := by
  refine ⟨?_, ?_, computeStartRow_eq sh, one_le_computeStartRow sh⟩
  · intro c
    exact appendDataToSheet_cells_frame sh data m 0 c
      (Or.inl (one_le_computeStartRow sh))
  · intro r c hne
    by_contra hlt
    exact hne (appendDataToSheet_cells_frame sh data m r c (Or.inl (by omega)))

/-- C5 witness: appending one record to the header-only sheet writes its
data at row 1, so the changed cell is at a row ≥ the append start row. -/
theorem C5_header_preserved_witness :
    computeStartRow sheetX ≤ 1 :=
  (C5_header_preserved sheetX [[("X", "v")]] []).2.1 1 0 (by decide)

/-- C4: merging into an existing template sheet, record `i`'s cell in
template column `j` with header `h`: a blank header is never written
(the cell is untouched); a non-blank header always receives an explicit
cell (never a gap) holding `mergedCell`, whose value resolution is
(a) the exact field of the record named by the template header, else
(b) the first mapping entry whose template side contains the header and
whose csv column is present, else (c) an empty text cell. -/
theorem C4_alias_resolution (sh : Sheet) (data : List Rec) (m : Mapping)
    (i : Nat) (rec : Rec) (hi : data.get? i = some rec)
    (j : Nat) (h : String) (hj : (templateHeaders sh).get? j = some h) :
    (h = "" → (appendDataToSheet sh data m).cells (computeStartRow sh + i) j =
      sh.cells (computeStartRow sh + i) j) ∧
    (h ≠ "" → (appendDataToSheet sh data m).cells (computeStartRow sh + i) j =
      some (mergedCell m rec h)) ∧
    (∀ hdr v, recGet rec hdr = some v → resolveValue m rec hdr = v) ∧
    (∀ hdr e, recGet rec hdr = none →
      m.find? (fun e2 => e2.2.contains hdr && (recGet rec e2.1).isSome) = some e →
      resolveValue m rec hdr = (recGet rec e.1).getD "") ∧
    (∀ hdr, recGet rec hdr = none →
      m.find? (fun e2 => e2.2.contains hdr && (recGet rec e2.1).isSome) = none →
      mergedCell m rec hdr = Cell.s "") := by
  refine ⟨?_, ?_, ?_, ?_, ?_⟩
  · intro h0
    rw [appendDataToSheet_cells_at sh data m i rec hi j h hj, if_pos h0]
  · intro h0
    rw [appendDataToSheet_cells_at sh data m i rec hi j h hj, if_neg h0]
  · intro hdr v hget
    rw [resolveValue, hget]
  · intro hdr e hget hfind
    rw [resolveValue, hget, hfind]
  · intro hdr hget hfind
    rw [mergedCell]
    have hres : resolveValue m rec hdr = "" := by
      rw [resolveValue, hget, hfind]
    rw [hres]
    simp

/-- C4 witness: a b2b record carrying only the source field
"GSTIN/UIN of Recipient" populates the template column "GSTIN/UIN" through
the registered alias. -/
theorem C4_alias_resolution_witness :
    (appendDataToSheet sheetGstin [[("GSTIN/UIN of Recipient", "X1")]]
        (mappingFor "b2b")).cells (computeStartRow sheetGstin + 0) 0 =
      some (mergedCell (mappingFor "b2b") [("GSTIN/UIN of Recipient", "X1")] "GSTIN/UIN") :=
  (C4_alias_resolution sheetGstin [[("GSTIN/UIN of Recipient", "X1")]] (mappingFor "b2b")
    0 [("GSTIN/UIN of Recipient", "X1")] rfl 0 "GSTIN/UIN" (by decide)).2.1 (by decide)

/-- C2 counterexample: the trimmed value "07 -Delhi" begins with digits,
whitespace, a dash — the pattern the claim says is stripped — yet
`cleanPlaceOfSupply` leaves it unchanged (the source regex `^\d+-\s*`
admits no whitespace before the dash). -/
theorem C2_counterexample :
    cleanPlaceOfSupply "07 -Delhi" = "07 -Delhi" ∧
    cleanPlaceOfSupply "07 -Delhi" ≠ "Delhi" :=
  ⟨by decide, by decide⟩

/-- C2 (amended): the stripped leading prefix is one or more digits
IMMEDIATELY followed by a dash, then optional whitespace (no whitespace
allowed between the digits and the dash); a trimmed value with no such
prefix is returned unchanged.  "07-Delhi" becomes "Delhi" and "Delhi"
stays "Delhi". -/
theorem C2_place_of_supply_amended (s : String) :
    (∀ ds rest, (jsTrim s).data = ds ++ '-' :: rest → ds ≠ [] →
      (∀ c ∈ ds, c.isDigit = true) →
      cleanPlaceOfSupply s = jsTrim (String.mk (rest.dropWhile jsWS))) ∧
    ((∀ ds rest, (jsTrim s).data = ds ++ '-' :: rest → ds ≠ [] →
        ¬(∀ c ∈ ds, c.isDigit = true)) →
      cleanPlaceOfSupply s = jsTrim s) ∧
    cleanPlaceOfSupply "07-Delhi" = "Delhi" ∧
    cleanPlaceOfSupply "Delhi" = "Delhi" := by
  refine ⟨?_, ?_, by decide, by decide⟩
  · intro ds rest ht hne hall
    have hcond : (!(((jsTrim s).data).takeWhile Char.isDigit).isEmpty &&
        ((((jsTrim s).data).dropWhile Char.isDigit).head? == some '-')) = true :=
      (codeDash_iff _).mpr ⟨ds, rest, ht, hne, hall⟩
    have hdw : ((jsTrim s).data).dropWhile Char.isDigit = '-' :: rest := by
      rw [ht]
      exact (takeWhile_append_of_all Char.isDigit ds '-' rest hall (by decide)).2
    show jsTrim (String.mk (if (!(((jsTrim s).data).takeWhile Char.isDigit).isEmpty &&
        ((((jsTrim s).data).dropWhile Char.isDigit).head? == some '-')) = true then
          ((((jsTrim s).data).dropWhile Char.isDigit).tail).dropWhile jsWS
        else (jsTrim s).data)) = jsTrim (String.mk (rest.dropWhile jsWS))
    rw [if_pos hcond, hdw]
    rfl
  · intro hno
    have hcond : (!(((jsTrim s).data).takeWhile Char.isDigit).isEmpty &&
        ((((jsTrim s).data).dropWhile Char.isDigit).head? == some '-')) = false := by
      cases hc : (!(((jsTrim s).data).takeWhile Char.isDigit).isEmpty &&
          ((((jsTrim s).data).dropWhile Char.isDigit).head? == some '-')) with
      | false => rfl
      | true =>
        rcases (codeDash_iff _).mp hc with ⟨ds, rest, ht, hne, hall⟩
        exact absurd hall (hno ds rest ht hne)
    show jsTrim (String.mk (if (!(((jsTrim s).data).takeWhile Char.isDigit).isEmpty &&
        ((((jsTrim s).data).dropWhile Char.isDigit).head? == some '-')) = true then
          ((((jsTrim s).data).dropWhile Char.isDigit).tail).dropWhile jsWS
        else (jsTrim s).data)) = jsTrim s
    rw [if_neg (by rw [hcond]; exact Bool.false_ne_true)]
    exact jsTrim_jsTrim s

/-- C2 witness: the amended positive case applied at "07-Delhi". -/
theorem C2_place_of_supply_witness :
    cleanPlaceOfSupply "07-Delhi" = jsTrim (String.mk ("Delhi".data.dropWhile jsWS)) :=
  (C2_place_of_supply_amended "07-Delhi").1 ['0', '7'] "Delhi".data (by decide) (by decide)
    (by decide)

/-- C3 counterexample: "1,234" (optional sign, digits, thousands separator)
is written as a TEXT cell by the merge's type inference, though the claim
says such values are numeric; and the same trimmed value "123" is written
as text by the fresh-sheet path (`jsonToSheet`) but numeric by the append
path, so the written type is not a function of the trimmed value alone
across merge paths. -/
theorem C3_counterexample :
    inferCell "1,234" = Cell.s "1,234" ∧
    (jsonToSheet [[("A", "123")]]).cells 1 0 = some (Cell.s "123") ∧
    inferCell "123" = Cell.n 123 := by
  refine ⟨by decide, by decide, ?_⟩
  show (if matchesNumeric "123" = true then Cell.n (parseDecimal "123")
    else Cell.s (jsTrim "123")) = Cell.n 123
  rw [if_pos (by decide)]
  have hp : decParts "123" = (false, ['1', '2', '3'], []) := by decide
  have h1 : digitsToNat ['1', '2', '3'] = 123 := by decide
  have h2 : digitsToNat [] = 0 := by decide
  simp only [parseDecimal, hp, h1, h2]
  norm_num

/-- C3 (amended): within the append path the written cell is a function of
the resolved, cleaned value alone — a value matching the strict pattern
(optional leading `-`, digits, optional single decimal point and trailing
digits, NO thousands separators) becomes a numeric cell with the parsed
value, any other non-empty value a trimmed text cell, and an empty resolved
value an empty text cell; in the fresh-sheet path every written cell is a
text cell. -/
theorem C3_type_inference_amended :
    (∀ v : String, matchesNumeric v = true → inferCell v = Cell.n (parseDecimal v)) ∧
    (∀ v : String, matchesNumeric v = false → inferCell v = Cell.s (jsTrim v)) ∧
    (∀ (m : Mapping) (row : Rec) (h : String), resolveValue m row h = "" →
      mergedCell m row h = Cell.s "") ∧
    (∀ (m : Mapping) (row : Rec) (h : String) (v : String),
      resolveValue m row h = v → v ≠ "" →
      mergedCell m row h =
        inferCell (if hasSub (jsToLower h) "place of supply" then cleanPlaceOfSupply v
          else v)) ∧
    (∀ (data : List Rec) (r c : Nat) (cell : Cell),
      (jsonToSheet data).cells r c = some cell → ∃ str, cell = Cell.s str) := by
  refine ⟨?_, ?_, ?_, ?_, ?_⟩
  · intro v hv
    rw [inferCell, if_pos hv]
  · intro v hv
    rw [inferCell, if_neg (by rw [hv]; exact Bool.false_ne_true)]
  · intro m row h hres
    rw [mergedCell, hres]
    simp
  · intro m row h v hres hv
    rw [mergedCell, hres]
    rw [if_neg (by simpa using hv)]
  · intro data r c cell
    show (if r = 0 then ((jsonHeaders data).get? c).map Cell.s
      else match data.get? (r - 1) with
        | some row =>
          match (jsonHeaders data).get? c with
          | some h => (recGet row h).map Cell.s
          | none => none
        | none => none) = some cell → ∃ str, cell = Cell.s str
    intro hcell
    by_cases hr : r = 0
    · rw [if_pos hr] at hcell
      cases hh : (jsonHeaders data).get? c with
      | none => rw [hh] at hcell; cases hcell
      | some h =>
        rw [hh] at hcell
        cases hcell
        exact ⟨h, rfl⟩
    · rw [if_neg hr] at hcell
      cases hd : data.get? (r - 1) with
      | none => rw [hd] at hcell; cases hcell
      | some row =>
        rw [hd] at hcell
        cases hh : (jsonHeaders data).get? c with
        | none => rw [hh] at hcell; cases hcell
        | some h =>
          rw [hh] at hcell
          change Option.map Cell.s (recGet row h) = some cell at hcell
          cases hg : recGet row h with
          | none => rw [hg] at hcell; cases hcell
          | some v =>
            rw [hg] at hcell
            cases hcell
            exact ⟨v, rfl⟩

/-- C3 witness: the amended characterization applied at concrete values:
"7" is numeric in the append path, "abc" is text, and a fresh-sheet cell
holding "x" is a text cell. -/
theorem C3_type_inference_witness :
    inferCell "7" = Cell.n (parseDecimal "7") ∧
    inferCell "abc" = Cell.s (jsTrim "abc") ∧
    (∃ str, Cell.s "x" = Cell.s str) :=
  ⟨C3_type_inference_amended.1 "7" (by decide),
   C3_type_inference_amended.2.1 "abc" (by decide),
   C3_type_inference_amended.2.2.2.2 [[("A", "x")]] 1 0 (Cell.s "x") (by decide)⟩

/-- C6 counterexample: file A ("b2b_a.csv") carries one record whose only
value is empty, so its row (written at row index 1 of the b2b sheet) has no
non-empty cell; the extent scan of file B ("b2b_b.csv") does not see it and
B's record is written at the SAME row index 1 (overwriting A's row), so
rows from A do not appear at strictly smaller indices than rows from B. -/
theorem C6_counterexample :
    (wbLookup (generateGSTR1Excel (some wbX) [("b2b_a.csv", "X\n\"\"")]) "b2b").map
        (fun sh => (sh.cells 1 0, sh.rng.er)) = some (some (Cell.s ""), 1) ∧
    (wbLookup (generateGSTR1Excel (some wbX)
          [("b2b_a.csv", "X\n\"\""), ("b2b_b.csv", "X\nv")]) "b2b").map
        (fun sh => (sh.cells 1 0, sh.rng.er)) = some (some (Cell.s "v"), 1) ∧
    computeStartRow sheetX = 1 ∧
    (wbLookup (generateGSTR1Excel (some wbX) [("b2b_a.csv", "X\n\"\"")]) "b2b").map
        computeStartRow = some 1 :=
  ⟨by decide, by decide, by decide, by decide⟩

/-- C6 (amended): `generateGSTR1Excel` folds the files strictly in input
order; after merging file A's records, every row of A that the extent scan
sees as non-empty lies strictly below the append start row used for the
next merge into that sheet, so file B's rows (written at consecutive rows
from that start row, in record order) land strictly after every non-empty
row of A; an all-empty row of A may be overwritten. -/
theorem C6_order_amended (sh : Sheet) (A B : List Rec) (m : Mapping) (hA : A ≠ []) :
    (∀ template files, generateGSTR1Excel template files =
      files.foldl (fun wb f => processFile wb f.1 f.2) (template.getD emptyWorkbook)) ∧
    (∀ i, i < A.length →
      rowHasData (appendDataToSheet sh A m) (computeStartRow sh + i) = true →
      computeStartRow sh + i < computeStartRow (appendDataToSheet sh A m)) ∧
    (∀ j rec, B.get? j = some rec → ∀ k h,
      (templateHeaders (appendDataToSheet sh A m)).get? k = some h → h ≠ "" →
      (appendDataToSheet (appendDataToSheet sh A m) B m).cells
          (computeStartRow (appendDataToSheet sh A m) + j) k =
        some (mergedCell m rec h)) := by
  refine ⟨fun _ _ => rfl, ?_, ?_⟩
  · intro i hi hdata
    have her : (appendDataToSheet sh A m).rng.er = computeStartRow sh + A.length - 1 := by
      rw [appendDataToSheet_rng sh A m hA]
    have h1 : 1 ≤ computeStartRow sh + i := by
      have := one_le_computeStartRow sh
      omega
    have hlen : 1 ≤ A.length := by
      cases A with
      | nil => exact absurd rfl hA
      | cons _ _ => simp
    exact lt_computeStartRow_of_data _ _ h1 (by omega) hdata
  · intro j rec hj k h hk hne
    rw [appendDataToSheet_cells_at _ B m j rec hj k h hk, if_neg hne]

/-- C6 witness: with a non-empty record in file A, A's row 1 is below B's
append start row, and B's record is written at that start row. -/
theorem C6_order_witness :
    computeStartRow sheetX + 0 <
      computeStartRow (appendDataToSheet sheetX [[("X", "v")]] []) ∧
    (appendDataToSheet (appendDataToSheet sheetX [[("X", "v")]] []) [[("X", "w")]] []).cells
        (computeStartRow (appendDataToSheet sheetX [[("X", "v")]] []) + 0) 0 =
      some (mergedCell [] [("X", "w")] "X") :=
  ⟨(C6_order_amended sheetX [[("X", "v")]] [[("X", "w")]] [] (by decide)).2.1 0
      (by decide) (by decide),
   (C6_order_amended sheetX [[("X", "v")]] [[("X", "w")]] [] (by decide)).2.2 0
      [("X", "w")] rfl 0 "X" (by decide) (by decide)⟩

/-- C1: divergence — the source tests the numeric regex on the value BEFORE
comma-stripping, so the comma-grouped numeral "1,234.50" fails the pattern
and is written as a TEXT cell, although its comma-stripped form "1234.50"
matches the strict pattern and parses to 1234.5, which the claim says
should be the written numeric value; "22AAAAA0000A1Z5" is a text cell as
claimed.  (The comma-stripping before `parseFloat` in the source is dead
code: its result is only used when the regex on the unstripped value
passes, which forces the value to contain no comma.) -/
theorem C1_comma_divergence :
    inferCell "1,234.50" = Cell.s "1,234.50" ∧
    (appendDataToSheet sheetInvoice [[("Invoice Value", "1,234.50")]] []).cells 1 0 =
      some (Cell.s "1,234.50") ∧
    stripCommas "1,234.50" = "1234.50" ∧
    matchesNumeric "1,234.50" = false ∧
    matchesNumeric "1234.50" = true ∧
    parseDecimal "1234.50" = (1234.5 : ℚ) ∧
    inferCell "22AAAAA0000A1Z5" = Cell.s "22AAAAA0000A1Z5" := by
  refine ⟨by decide, by decide, by decide, by decide, by decide, ?_, by decide⟩
  have hp : decParts "1234.50" = (false, ['1', '2', '3', '4'], ['5', '0']) := by decide
  have h1 : digitsToNat ['1', '2', '3', '4'] = 1234 := by decide
  have h2 : digitsToNat ['5', '0'] = 50 := by decide
  simp only [parseDecimal, hp, h1, h2]
  norm_num

end GSTPortal
